import Mathlib

/-!
Verification development for the file-upload asset pipeline
(src/lib.rs, src/upload_s3.rs, src/mount_s3.rs).

Strings are modelled as lists of Unicode code points (natural numbers).
The character-level tables (lowercasing, alphanumeric classification) are
modelled exactly on the code point range U+0000..U+00FF (Basic Latin and
Latin-1); code points above 255 are outside the modelled fragment and are
classified as non-alphanumeric with identity lowercasing.
-/

/-- Fragment of Rust char lowercasing as used by str::to_lowercase, exact on
U+0000..U+00FF: uppercase ASCII letters and uppercase Latin-1 letters
(U+00C0..U+00DE except the multiplication sign U+00D7) map down by 32, every
other modelled code point is fixed. -/
def toLowerChar (c : ℕ) : ℕ :=
  if 65 ≤ c ∧ c ≤ 90 then c + 32
  else if 192 ≤ c ∧ c ≤ 222 ∧ c ≠ 215 then c + 32
  else c

/-- Fragment of Rust char::is_alphanumeric (Unicode letters and numbers),
exact on U+0000..U+00FF: ASCII digits and letters, the Latin-1 letters
U+00AA, U+00B5, U+00BA, U+00C0..U+00FF except U+00D7 and U+00F7, and the
Latin-1 numeric signs U+00B2, U+00B3, U+00B9, U+00BC..U+00BE. -/
def isAlphanumericChar (c : ℕ) : Bool :=
  decide ((48 ≤ c ∧ c ≤ 57) ∨ (65 ≤ c ∧ c ≤ 90) ∨ (97 ≤ c ∧ c ≤ 122)
    ∨ c = 170 ∨ c = 178 ∨ c = 179 ∨ c = 181 ∨ c = 185 ∨ c = 186
    ∨ (188 ≤ c ∧ c ≤ 190)
    ∨ (192 ≤ c ∧ c ≤ 255 ∧ c ≠ 215 ∧ c ≠ 247))

/-- The second stage of sanitize_filename in src/lib.rs: .replace of the
space character (32) by a hyphen (45). -/
def spaceToHyphen (c : ℕ) : ℕ :=
  if c = 32 then 45 else c

/-- The filter predicate of sanitize_filename in src/lib.rs 121-128:
keep a character iff it is alphanumeric, hyphen (45), underscore (95) or
dot (46). -/
def sanitizeAllowedChar (c : ℕ) : Bool :=
  isAlphanumericChar c || c == 45 || c == 95 || c == 46

/-- sanitize_filename (src/lib.rs 121-128): lowercase the string, replace
each space with a hyphen, then keep only alphanumeric, hyphen, underscore
and dot characters. -/
def sanitize_filename (s : List ℕ) : List ℕ :=
  ((s.map toLowerChar).map spaceToHyphen).filter sanitizeAllowedChar

/-- The character class written [a-z0-9-_.] in the claim, taken from the
spec words: lowercase ASCII letter, ASCII digit, hyphen, underscore, dot. -/
def inSpecCharClass (c : ℕ) : Bool :=
  decide ((97 ≤ c ∧ c ≤ 122) ∨ (48 ≤ c ∧ c ≤ 57) ∨ c = 45 ∨ c = 95 ∨ c = 46)

/-- The code point U+00E9, a lowercase Latin-1 letter that Rust classifies
as alphanumeric. -/
def eAcute : ℕ := 233

/-- Every character surviving the sanitize filter satisfies the filter
predicate. -/
theorem sanitize_filename_all_allowed (s : List ℕ) :
    (sanitize_filename s).all sanitizeAllowedChar = true := by
  rw [List.all_eq_true]
  intro c hc
  exact (List.mem_filter.mp hc).2

/-- On ASCII inputs, each character produced by the lowercase and
space-replacement stages that passes the filter lies in [a-z0-9-_.]. -/
theorem ascii_sanitize_step :
    ∀ c : Fin 128, sanitizeAllowedChar (spaceToHyphen (toLowerChar c.1)) = true →
      inSpecCharClass (spaceToHyphen (toLowerChar c.1)) = true := by
  decide

/-- Claim C3 counterexample: sanitize_filename keeps the Latin-1 letter
U+00E9 unchanged (it is alphanumeric for Rust), so the output is not
contained in the ASCII class [a-z0-9-_.]. -/
theorem sanitize_unicode_counterexample :
    sanitize_filename [eAcute] = [eAcute] ∧ inSpecCharClass eAcute = false := by
  decide

/-- Claim C3 (amended): sanitize_filename lowercases, replaces spaces by
hyphens and keeps exactly the Unicode-alphanumeric characters plus hyphen,
underscore and dot; its output therefore consists of such characters only,
and for ASCII inputs the output is contained in [a-z0-9-_.]. -/
theorem sanitize_filename_charset (s : List ℕ) :
    (sanitize_filename s).all sanitizeAllowedChar = true
    ∧ ((s.all fun c => decide (c < 128)) = true →
        (sanitize_filename s).all inSpecCharClass = true) := by
  refine ⟨sanitize_filename_all_allowed s, ?_⟩
  intro hascii
  rw [List.all_eq_true]
  intro d hd
  have hall := (List.mem_filter.mp hd).2
  have hmem := (List.mem_filter.mp hd).1
  rw [List.map_map, List.mem_map] at hmem
  obtain ⟨c, hc, hdc⟩ := hmem
  have hc128 : c < 128 := by
    rw [List.all_eq_true] at hascii
    exact of_decide_eq_true (hascii c hc)
  have := ascii_sanitize_step ⟨c, hc128⟩
  simp only [Function.comp] at hdc
  rw [← hdc] at hall ⊢
  exact this hall

/-- Claim C3 witness at a concrete ASCII input. -/
theorem sanitize_filename_charset_witness :
    ([77, 121, 32, 80, 104, 111, 116, 111, 46, 74, 80, 71].all
        fun c => decide (c < 128)) = true
    ∧ (sanitize_filename [77, 121, 32, 80, 104, 111, 116, 111, 46, 74, 80, 71]).all
        inSpecCharClass = true := by
  refine ⟨by decide, ?_⟩
  exact (sanitize_filename_charset
    [77, 121, 32, 80, 104, 111, 116, 111, 46, 74, 80, 71]).2 (by decide)

/-- Each character image of the lowercase plus space-replacement stages is a
fixed point of both stages. -/
theorem pipelineChar_fixed (c : ℕ) :
    toLowerChar (spaceToHyphen (toLowerChar c)) = spaceToHyphen (toLowerChar c)
    ∧ spaceToHyphen (spaceToHyphen (toLowerChar c)) = spaceToHyphen (toLowerChar c) := by
  unfold toLowerChar spaceToHyphen
  split_ifs <;> omega

/-- sanitize_filename written as a single map followed by the filter. -/
theorem sanitize_filename_eq_map_filter (s : List ℕ) :
    sanitize_filename s
      = (s.map fun c => spaceToHyphen (toLowerChar c)).filter sanitizeAllowedChar := by
  unfold sanitize_filename
  rw [List.map_map]
  rfl

/-- Unfolding of sanitize_filename on a cons cell. -/
theorem sanitize_filename_cons (c : ℕ) (s : List ℕ) :
    sanitize_filename (c :: s)
      = if sanitizeAllowedChar (spaceToHyphen (toLowerChar c)) = true
        then spaceToHyphen (toLowerChar c) :: sanitize_filename s
        else sanitize_filename s := by
  rw [sanitize_filename_eq_map_filter, List.map_cons, List.filter_cons,
    ← sanitize_filename_eq_map_filter]

/-- Claim C8: sanitize_filename is idempotent. -/
theorem sanitize_filename_idempotent (s : List ℕ) :
    sanitize_filename (sanitize_filename s) = sanitize_filename s := by
  induction s with
  | nil => rfl
  | cons c s ih =>
    rw [sanitize_filename_cons c s]
    by_cases h : sanitizeAllowedChar (spaceToHyphen (toLowerChar c)) = true
    · rw [if_pos h, sanitize_filename_cons, (pipelineChar_fixed c).1,
        (pipelineChar_fixed c).2, if_pos h, ih]
    · rw [if_neg h, ih]

/-- Rust Path::extension on a plain file name: the portion after the last
dot, provided some dot occurs at a positive index; a name without a dot, or
whose only dot is leading, has no extension. -/
def rust_extension (name : List ℕ) : Option (List ℕ) :=
  if 46 ∈ name.drop 1 then
    some ((name.reverse.takeWhile fun c => c != 46).reverse)
  else none

/-- The image extensions of is_image (src/lib.rs 79-89), as code point
lists: png, jpg, jpeg, gif, bmp, tiff, webp. -/
def imageExtensions : List (List ℕ) :=
  [[112, 110, 103], [106, 112, 103], [106, 112, 101, 103], [103, 105, 102],
   [98, 109, 112], [116, 105, 102, 102], [119, 101, 98, 112]]

/-- The accepted extensions of is_valid_file_type (src/lib.rs 91-119), in
source order: jpg, jpeg, png, gif, bmp, tiff, webp, doc, docx, pdf, txt,
rtf, xls, xlsx, csv, ppt, pptx, zip, rar, 7z. -/
def validExtensions : List (List ℕ) :=
  [[106, 112, 103], [106, 112, 101, 103], [112, 110, 103], [103, 105, 102],
   [98, 109, 112], [116, 105, 102, 102], [119, 101, 98, 112],
   [100, 111, 99], [100, 111, 99, 120], [112, 100, 102], [116, 120, 116],
   [114, 116, 102], [120, 108, 115], [120, 108, 115, 120], [99, 115, 118],
   [112, 112, 116], [112, 112, 116, 120], [122, 105, 112], [114, 97, 114],
   [55, 122]]

/-- is_image (src/lib.rs 79-89): true iff the extension exists and its
lowercasing is one of the image extensions. -/
def is_image (name : List ℕ) : Bool :=
  match rust_extension name with
  | none => false
  | some e => decide (e.map toLowerChar ∈ imageExtensions)

/-- is_valid_file_type (src/lib.rs 91-119): the extension (empty when
missing) is lowercased and matched against the accepted extension list. -/
def is_valid_file_type (name : List ℕ) : Bool :=
  decide (((rust_extension name).getD []).map toLowerChar ∈ validExtensions)

/-- Claim C10: every name classified as an image is also a valid file type:
the image extension set is contained in the accepted extension set. -/
theorem image_implies_valid (name : List ℕ) (h : is_image name = true) :
    is_valid_file_type name = true := by
  unfold is_image at h
  unfold is_valid_file_type
  cases hx : rust_extension name with
  | none => rw [hx] at h; simp at h
  | some e =>
    rw [hx] at h
    have hm : e.map toLowerChar ∈ imageExtensions := of_decide_eq_true h
    apply decide_eq_true
    show e.map toLowerChar ∈ validExtensions
    simp only [imageExtensions, List.mem_cons, List.not_mem_nil, or_false] at hm
    rcases hm with h1 | h1 | h1 | h1 | h1 | h1 | h1 <;> rw [h1] <;> decide

/-- Claim C10 witness at the concrete name a.png. -/
theorem image_implies_valid_witness :
    is_image [97, 46, 112, 110, 103] = true
    ∧ is_valid_file_type [97, 46, 112, 110, 103] = true :=
  ⟨by decide, image_implies_valid [97, 46, 112, 110, 103] (by decide)⟩

/-- The error kinds surfaced by the pipeline effects. -/
inductive RunError
  | ioError
  | codecError
  | storageError
  deriving DecidableEq

/-- The height computed by resize_image (src/lib.rs 186-197) for a positive
source width: aspect_ratio = height / width, then
(target_width * aspect_ratio).round() cast to u32. The f32 arithmetic is
modelled as exact rational arithmetic; .round() rounds half away from zero,
which on nonnegative values is the floor of the value plus one half. -/
def resize_image_height_core (ow oh tw : ℕ) : ℕ :=
  ⌊(tw : ℚ) * ((oh : ℚ) / (ow : ℚ)) + 1 / 2⌋₊

/-- Largest u32 value, the saturation point of Rust float-to-u32 casts. -/
def U32_MAX : ℕ := 4294967295

/-- The full height computation of resize_image including a zero source
width, where the IEEE f32 special values decide the result: oh / 0 is
positive infinity when oh is positive and NaN when oh = 0; multiplying by a
zero target width also yields NaN; rounding preserves infinity and NaN; the
saturating cast to u32 sends infinity to u32::MAX and NaN to 0. -/
def resize_image_height_rs (ow oh tw : ℕ) : ℕ :=
  if ow = 0 then
    if oh = 0 ∨ tw = 0 then 0 else U32_MAX
  else resize_image_height_core ow oh tw

/-- The height computed by create_image_variants (src/upload_s3.rs 129-147)
for a positive source width: img.height() * (width / img.width()) truncated
by the cast to u32 (no rounding), again with f32 modelled as exact rational
arithmetic. -/
def create_image_variants_height (ow oh tw : ℕ) : ℕ :=
  ⌊(oh : ℚ) * ((tw : ℚ) / (ow : ℚ))⌋₊

/-- Modelled from the spec words: computeVariantDimensions returns width =
targetWidth and height = round(targetWidth * originalHeight /
originalWidth), the nearest integer, halves rounding up, written with
natural division. -/
def computeVariantDimensions_spec (ow oh tw : ℕ) : ℕ × ℕ :=
  (tw, (2 * tw * oh + ow) / (2 * ow))

/-- The rational rounding in resize_image equals the natural-division form
of round. -/
theorem resize_core_eq_div (ow oh tw : ℕ) (h : 0 < ow) :
    resize_image_height_core ow oh tw = (2 * tw * oh + ow) / (2 * ow) := by
  have how : (ow : ℚ) ≠ 0 := Nat.cast_ne_zero.mpr h.ne'
  unfold resize_image_height_core
  have key : (tw : ℚ) * ((oh : ℚ) / (ow : ℚ)) + 1 / 2
      = ((2 * tw * oh + ow : ℕ) : ℚ) / ((2 * ow : ℕ) : ℚ) := by
    push_cast
    field_simp
    ring
  rw [key, Nat.floor_div_nat, Nat.floor_natCast]

/-- The rational truncation in create_image_variants equals natural
division. -/
theorem create_core_eq_div (ow oh tw : ℕ) (h : 0 < ow) :
    create_image_variants_height ow oh tw = tw * oh / ow := by
  have how : (ow : ℚ) ≠ 0 := Nat.cast_ne_zero.mpr h.ne'
  unfold create_image_variants_height
  have key : (oh : ℚ) * ((tw : ℚ) / (ow : ℚ))
      = ((tw * oh : ℕ) : ℚ) / ((ow : ℕ) : ℚ) := by
    push_cast
    field_simp
    ring
  rw [key, Nat.floor_div_nat, Nat.floor_natCast]

/-- Claim C2 counterexample: at original dimensions 3 by 2 and target width
4, create_image_variants truncates to height 2 while the nearest integer to
8 / 3 is 3, so the claimed rounding fails for that computation. -/
theorem truncated_variant_height_counterexample :
    create_image_variants_height 3 2 4 = 2
    ∧ (computeVariantDimensions_spec 3 2 4).2 = 3
    ∧ create_image_variants_height 3 2 4 ≠ (computeVariantDimensions_spec 3 2 4).2 := by
  have h2 : create_image_variants_height 3 2 4 = 2 := by
    rw [create_core_eq_div 3 2 4 (by norm_num)]
  exact ⟨h2, rfl, by rw [h2]; decide⟩

/-- Bounds of natural division: the quotient times the divisor is within
one divisor below the dividend. -/
theorem nat_div_bounds (m k : ℕ) (hk : 0 < k) :
    k * (m / k) ≤ m ∧ m < k * (m / k) + k := by
  constructor
  · calc k * (m / k) = m / k * k := by ring
    _ ≤ m := Nat.div_mul_le_self m k
  · have h := Nat.lt_succ_self (m / k)
    rw [Nat.div_lt_iff_lt_mul hk] at h
    calc m < (m / k + 1) * k := h
    _ = k * (m / k) + k := by ring

/-- Claim C2 (amended): for positive source width, resize_image in
src/lib.rs computes height = round(targetWidth * originalHeight /
originalWidth), the nearest integer (within half a pixel of the exact
aspect-preserving height), while create_image_variants in src/upload_s3.rs
truncates the same ratio (within one pixel below the exact value), which
can be one less than the rounded height. -/
theorem variant_dimensions (ow oh tw : ℕ) (h : 0 < ow) :
    resize_image_height_core ow oh tw = (computeVariantDimensions_spec ow oh tw).2
    ∧ 2 * tw * oh ≤ 2 * ow * resize_image_height_core ow oh tw + ow
    ∧ 2 * ow * resize_image_height_core ow oh tw ≤ 2 * tw * oh + ow
    ∧ create_image_variants_height ow oh tw = tw * oh / ow
    ∧ ow * create_image_variants_height ow oh tw ≤ tw * oh
    ∧ tw * oh < ow * create_image_variants_height ow oh tw + ow := by
  have hr := resize_core_eq_div ow oh tw h
  have hc := create_core_eq_div ow oh tw h
  obtain ⟨hr1, hr2⟩ := nat_div_bounds (2 * tw * oh + ow) (2 * ow) (by omega)
  obtain ⟨hc1, hc2⟩ := nat_div_bounds (tw * oh) ow h
  refine ⟨hr, ?_, ?_, hc, ?_, ?_⟩
  · rw [hr]
    omega
  · rw [hr]
    omega
  · rw [hc]
    exact hc1
  · rw [hc]
    exact hc2

/-- Claim C2 witness at original dimensions 3 by 2 and target width 4. -/
theorem variant_dimensions_witness :
    0 < 3
    ∧ (resize_image_height_core 3 2 4 = (computeVariantDimensions_spec 3 2 4).2
      ∧ 2 * 4 * 2 ≤ 2 * 3 * resize_image_height_core 3 2 4 + 3
      ∧ 2 * 3 * resize_image_height_core 3 2 4 ≤ 2 * 4 * 2 + 3
      ∧ create_image_variants_height 3 2 4 = 4 * 2 / 3
      ∧ 3 * create_image_variants_height 3 2 4 ≤ 4 * 2
      ∧ 4 * 2 < 3 * create_image_variants_height 3 2 4 + 3) :=
  ⟨by decide, variant_dimensions 3 2 4 (by decide)⟩

/-- resize_image (src/lib.rs 186-197) on the dimension data: the image is
opened (none models a codec failure), the variant height is computed with
no validation branch, the resized image is saved (false models a save
failure). The only error sources are the open and the save. -/
def resize_image (openResult : Option (ℕ × ℕ)) (saveOk : Bool) (tw : ℕ) :
    Except RunError (ℕ × ℕ) :=
  match openResult with
  | none => .error .codecError
  | some (ow, oh) =>
    if saveOk then .ok (tw, resize_image_height_rs ow oh tw)
    else .error .codecError

/-- Claim C7 counterexample: a zero-width source image with positive height
and target width 200 does not fail resize_image; the dimension computation
silently saturates to u32::MAX and the call returns Ok. -/
theorem zero_width_no_error_counterexample :
    resize_image (some (0, 150)) true 200 = .ok (200, U32_MAX) := by
  rfl

/-- Claim C7 (amended): resize_image has no validation branch for a
zero-width source: when decode and save succeed it returns Ok with the
height saturated to u32::MAX (positive height and target width), never an
error, instead of failing the file with an input error. -/
theorem zero_width_saturates (oh tw : ℕ) (h1 : 0 < oh) (h2 : 0 < tw) :
    resize_image (some (0, oh)) true tw = .ok (tw, U32_MAX)
    ∧ ∀ e, resize_image (some (0, oh)) true tw ≠ .error e := by
  have hh : resize_image_height_rs 0 oh tw = U32_MAX := by
    unfold resize_image_height_rs
    rw [if_pos rfl, if_neg (by omega)]
  constructor
  · show Except.ok (tw, resize_image_height_rs 0 oh tw) = Except.ok (tw, U32_MAX)
    rw [hh]
  · intro e
    show Except.ok (tw, resize_image_height_rs 0 oh tw) ≠ Except.error e
    intro hcontra
    cases hcontra

/-- Claim C7 witness at height 150 and target width 200. -/
theorem zero_width_saturates_witness :
    0 < 150 ∧ 0 < 200
    ∧ (resize_image (some (0, 150)) true 200 = .ok (200, U32_MAX)
      ∧ ∀ e, resize_image (some (0, 150)) true 200 ≠ .error e) :=
  ⟨by decide, by decide, zero_width_saturates 150 200 (by decide) (by decide)⟩

/-- Whether an Except result is Ok. -/
def isOkE (r : Except RunError Unit) : Bool :=
  match r with
  | .ok _ => true
  | .error _ => false

/-- A working directory as seen by process_and_upload_all: whether it
exists, and the result of enumerating its valid staged files (the read
itself can fail). -/
structure WorkDir where
  present : Bool
  entries : Except RunError (List String)

/-- Directory handling in process_and_upload_all (src/lib.rs 421-433): a
missing directory is skipped, a read failure propagates. -/
def dirFiles (d : WorkDir) : Except RunError (List String) :=
  if d.present then d.entries else .ok []

/-- One iteration of the per-file loop (src/lib.rs 439-455): the result of
process_and_upload_file is matched; on Ok the counter increments and
fs::remove_file is attempted, its own failure being only logged; on Err the
error is logged and the loop continues. Returns the counter increment and
whether the source file survives. -/
def fileStep (procResult : Except RunError Unit) (removeOk : Bool) : ℕ × Bool :=
  match procResult with
  | .ok _ => (1, !removeOk)
  | .error _ => (0, true)

/-- The per-file loop over one working directory, in file order: the
processed count and the surviving source files. -/
def runLoop (files : List String) (proc : String → Except RunError Unit)
    (removeOk : String → Bool) : ℕ × List String :=
  match files with
  | [] => (0, [])
  | f :: rest =>
    let st := fileStep (proc f) (removeOk f)
    let r := runLoop rest proc removeOk
    (st.1 + r.1, (if st.2 then [f] else []) ++ r.2)

/-- The cleanup step (src/lib.rs 464-470): a remove_dir_all failure is
caught by the if-let and only logged, never returned. -/
def cleanupStep (removeDirResult : Except RunError Unit) : Unit :=
  match removeDirResult with
  | .ok _ => ()
  | .error _ => ()

/-- The summary string of process_and_upload_all (src/lib.rs 473-481). -/
def summary (processed total : ℕ) : String :=
  if total = 0 then "No valid files to process."
  else "Successfully processed and uploaded " ++ toString processed
    ++ " out of " ++ toString total ++ " files."

/-- process_and_upload_all (src/lib.rs 409-482) on its effect outcomes:
directory preparation errors propagate; each working directory is read
(missing directories are skipped, read failures propagate); the image files
and then the generic files run through the per-file loop; cleanup outcomes
are discarded after their match; the summary is returned together with the
staged files that survive the loop. -/
def process_and_upload_all (prep : Except RunError Unit)
    (imgDir fileDir : WorkDir) (proc : String → Except RunError Unit)
    (removeOk : String → Bool)
    (cleanupImages cleanupFiles : Except RunError Unit) :
    Except RunError (String × List String) :=
  match prep with
  | .error e => .error e
  | .ok _ =>
    match dirFiles imgDir with
    | .error e => .error e
    | .ok imgFiles =>
      let r1 := runLoop imgFiles proc removeOk
      match dirFiles fileDir with
      | .error e => .error e
      | .ok fileFiles =>
        let r2 := runLoop fileFiles proc removeOk
        let _ := cleanupStep cleanupImages
        let _ := cleanupStep cleanupFiles
        .ok (summary (r1.1 + r2.1) (imgFiles.length + fileFiles.length),
          r1.2 ++ r2.2)

/-- The per-file loop visits every file: the processed count is the number
of files whose processing succeeded. -/
theorem runLoop_count (files : List String)
    (proc : String → Except RunError Unit) (removeOk : String → Bool) :
    (runLoop files proc removeOk).1
      = (files.filter fun f => isOkE (proc f)).length := by
  induction files with
  | nil => rfl
  | cons f rest ih =>
    rw [runLoop, List.filter_cons]
    cases hp : proc f with
    | ok u => simp [fileStep, isOkE, hp, ih]; omega
    | error e => simp [fileStep, isOkE, hp, ih]

/-- A file whose processing failed survives the per-file loop. -/
theorem runLoop_failed_survives (files : List String)
    (proc : String → Except RunError Unit) (removeOk : String → Bool)
    (f : String) (hf : f ∈ files) (hfail : isOkE (proc f) = false) :
    f ∈ (runLoop files proc removeOk).2 := by
  induction files with
  | nil => cases hf
  | cons g rest ih =>
    rw [runLoop]
    rcases List.mem_cons.mp hf with rfl | hmem
    · cases hp : proc f with
      | ok u => rw [hp] at hfail; simp [isOkE] at hfail
      | error e =>
        simp only [fileStep, hp]
        exact List.mem_append_left _ (List.mem_singleton.mpr rfl)
    · exact List.mem_append_right _ (ih hmem)

/-- A file whose processing and removal both succeeded does not survive the
per-file loop. -/
theorem runLoop_removed (files : List String)
    (proc : String → Except RunError Unit) (removeOk : String → Bool)
    (f : String) (hok : isOkE (proc f) = true) (hrm : removeOk f = true) :
    f ∉ (runLoop files proc removeOk).2 := by
  induction files with
  | nil => exact List.not_mem_nil f
  | cons g rest ih =>
    rw [runLoop]
    intro hmem
    rcases List.mem_append.mp hmem with hleft | hright
    · by_cases hg : f = g
      · subst hg
        cases hp : proc f with
        | ok u =>
          simp only [fileStep, hp, hrm] at hleft
          simp at hleft
        | error e => rw [hp] at hok; simp [isOkE] at hok
      · rcases (fileStep (proc g) (removeOk g)).2 with _ | _ <;>
          simp_all [List.mem_singleton]
    · exact ih hright

/-- Claim C1: per-file failures in the publish loop are contained at the
file boundary: every staged file is visited (the processed count is the
number of successes), a file whose processing failed is never removed and
survives the loop, a successfully processed file whose removal succeeds is
deleted, and per-file errors are never raised to the caller: with setup and
enumeration succeeding the run returns Ok whatever the per-file
outcomes are. -/
theorem per_file_failures_contained (files : List String)
    (proc : String → Except RunError Unit) (removeOk : String → Bool)
    (cleanupA cleanupB : Except RunError Unit) :
    (runLoop files proc removeOk).1
        = (files.filter fun f => isOkE (proc f)).length
    ∧ (∀ f, f ∈ files → isOkE (proc f) = false →
        f ∈ (runLoop files proc removeOk).2)
    ∧ (∀ f, isOkE (proc f) = true → removeOk f = true →
        f ∉ (runLoop files proc removeOk).2)
    ∧ (∃ s, process_and_upload_all (.ok ()) ⟨true, .ok files⟩
        ⟨true, .ok []⟩ proc removeOk cleanupA cleanupB = .ok s) :=
  ⟨runLoop_count files proc removeOk,
   fun f hf hfail => runLoop_failed_survives files proc removeOk f hf hfail,
   fun f hok hrm => runLoop_removed files proc removeOk f hok hrm,
   ⟨_, rfl⟩⟩

/-- The staged file whose processing fails in the Claim C1 witness. -/
def exFileA : String := "bad.png"

/-- The staged file whose processing succeeds in the Claim C1 witness. -/
def exFileB : String := "good.pdf"

/-- A per-file processing oracle failing exactly on exFileA. -/
def exProc : String → Except RunError Unit :=
  fun f => if f = exFileA then .error .codecError else .ok ()

/-- A removal oracle that always succeeds. -/
def exRemove : String → Bool := fun _ => true

/-- The staged file list of the Claim C1 witness. -/
def exFiles : List String := [exFileA, exFileB]

/-- Claim C1 witness on a two-file run with one failure. -/
theorem per_file_failures_contained_witness :
    (runLoop exFiles exProc exRemove).1 = 1
    ∧ exFileA ∈ (runLoop exFiles exProc exRemove).2
    ∧ exFileB ∉ (runLoop exFiles exProc exRemove).2
    ∧ (∃ s, process_and_upload_all (.ok ()) ⟨true, .ok exFiles⟩
        ⟨true, .ok []⟩ exProc exRemove (.ok ()) (.ok ()) = .ok s) := by
  have h := per_file_failures_contained exFiles exProc exRemove (.ok ()) (.ok ())
  refine ⟨?_, ?_, ?_, h.2.2.2⟩
  · rw [h.1]; decide
  · exact h.2.1 exFileA (by decide) (by decide)
  · exact h.2.2.1 exFileB (by decide) (by decide)

/-- An existing empty working directory. -/
def emptyDir : WorkDir := ⟨true, Except.ok []⟩

/-- An existing working directory whose enumeration fails. -/
def errDir : WorkDir := ⟨true, Except.error RunError.ioError⟩

/-- A per-file oracle that always succeeds. -/
def procAllOk : String → Except RunError Unit := fun _ => Except.ok ()

/-- A removal oracle that always succeeds. -/
def removeAll : String → Bool := fun _ => true

/-- Claim C6 counterexample: with both working-directory removals failing
during final cleanup and everything else succeeding, the run still returns
Ok: final cleanup errors are caught and logged, not propagated. -/
theorem cleanup_error_swallowed_counterexample :
    process_and_upload_all (.ok ()) emptyDir emptyDir procAllOk removeAll
      (.error .ioError) (.error .ioError)
      = .ok ("No valid files to process.", []) := by
  rfl

/-- Claim C6 (amended): directory setup errors and enumeration errors
propagate and abort the whole run, but an error in the final cleanup of the
working directories is caught where it occurs: the run result does not
depend on the cleanup outcomes at all. -/
theorem run_abort_policy (prep : Except RunError Unit)
    (imgDir fileDir : WorkDir) (proc : String → Except RunError Unit)
    (removeOk : String → Bool) (cA cB cA2 cB2 : Except RunError Unit)
    (e : RunError) :
    (prep = .error e →
      process_and_upload_all prep imgDir fileDir proc removeOk cA cB
        = .error e)
    ∧ (imgDir.present = true → imgDir.entries = .error e →
      process_and_upload_all (.ok ()) imgDir fileDir proc removeOk cA cB
        = .error e)
    ∧ process_and_upload_all prep imgDir fileDir proc removeOk cA cB
      = process_and_upload_all prep imgDir fileDir proc removeOk cA2 cB2 := by
  refine ⟨?_, ?_, ?_⟩
  · intro hp
    rw [hp]
    rfl
  · intro hpres hent
    simp [process_and_upload_all, dirFiles, hpres, hent]
  · rfl

/-- Claim C6 witness: a failing preparation aborts the run, and a failing
image-directory enumeration aborts the run. -/
theorem run_abort_policy_witness :
    process_and_upload_all (.error .ioError) emptyDir emptyDir procAllOk
      removeAll (.ok ()) (.ok ()) = .error .ioError
    ∧ process_and_upload_all (.ok ()) errDir emptyDir procAllOk removeAll
      (.ok ()) (.ok ()) = .error .ioError := by
  have h1 := run_abort_policy (.error .ioError) emptyDir emptyDir procAllOk
    removeAll (.ok ()) (.ok ()) (.ok ()) (.ok ()) .ioError
  have h2 := run_abort_policy (.ok ()) errDir emptyDir procAllOk removeAll
    (.ok ()) (.ok ()) (.ok ()) (.ok ()) .ioError
  exact ⟨h1.1 rfl, h2.2.1 rfl rfl⟩

/-- Per-variant effect outcomes in the variant loop of
process_and_upload_file. -/
structure VariantFx where
  resizeOk : Bool
  uploadOk : Bool
  removeOk : Bool

/-- The upload key and local file name of a variant (src/lib.rs 367): the
stem, the marker _w, the target width, a dot, the extension. -/
def variantKey (stem ext : String) (w : ℕ) : String :=
  stem ++ "_w" ++ toString w ++ "." ++ ext

/-- The variant loop of process_and_upload_file (src/lib.rs 366-387), on
the list of local variant files present in the working directory: each
iteration writes the variant file by resize_image (a failure propagates
with no file written), uploads it (the question-mark operator propagates a
failure, leaving the file on disk), and only then removes the local file (a
removal failure also propagates, leaving the file). Returns the files on
disk afterwards and whether the loop completed. -/
def variantLoop (stem ext : String) (fx : String → VariantFx) :
    List (String × ℕ) → List String → List String × Bool
  | [], disk => (disk, true)
  | (_, w) :: rest, disk =>
    let file := variantKey stem ext w
    if (fx file).resizeOk = false then (disk, false)
    else if (fx file).uploadOk = false then (disk ++ [file], false)
    else if (fx file).removeOk = false then (disk ++ [file], false)
    else variantLoop stem ext fx rest disk

/-- The stem used in concrete variant examples. -/
def exStem : String := "photo"

/-- The extension used in concrete variant examples. -/
def exExt : String := "png"

/-- A variant oracle where resizing succeeds and uploading fails. -/
def fxUploadFails : String → VariantFx := fun _ => ⟨true, false, true⟩

/-- A variant oracle where every step succeeds. -/
def fxAllOk : String → VariantFx := fun _ => ⟨true, true, true⟩

/-- Claim C4 counterexample: with the upload of the mobile variant failing,
the loop aborts with the freshly created variant file still on disk: the
local variant file is not deleted on upload failure. -/
theorem variant_file_kept_on_upload_failure :
    variantLoop exStem exExt fxUploadFails [("mobile", 200)] []
      = (["photo_w200.png"], false) := by
  rfl

/-- Claim C4 (amended): the local variant file is deleted only after a
successful upload: when resize, upload and removal succeed for every
variant, the loop completes with the disk unchanged, while an upload
failure aborts the processing of the file with the variant file left on
disk. -/
theorem variant_cleanup_on_success_only (stem ext : String)
    (fx : String → VariantFx) (variants : List (String × ℕ))
    (disk : List String) :
    ((∀ f, (fx f).resizeOk = true ∧ (fx f).uploadOk = true
        ∧ (fx f).removeOk = true) →
      variantLoop stem ext fx variants disk = (disk, true))
    ∧ (∀ n w rest, (fx (variantKey stem ext w)).resizeOk = true →
        (fx (variantKey stem ext w)).uploadOk = false →
        variantLoop stem ext fx ((n, w) :: rest) disk
          = (disk ++ [variantKey stem ext w], false)) := by
  constructor
  · intro hall
    induction variants with
    | nil => rfl
    | cons v rest ih =>
      obtain ⟨n, w⟩ := v
      have h := hall (variantKey stem ext w)
      simp [variantLoop, h.1, h.2.1, h.2.2, ih]
  · intro n w rest h1 h2
    simp [variantLoop, h1, h2]

/-- The variant name used in the Claim C4 witness. -/
def exName2 : String := "tablet"

/-- Claim C4 witness: an all-success loop leaves no variant file, and an
upload failure leaves the tablet variant file. -/
theorem variant_cleanup_on_success_only_witness :
    variantLoop exStem exExt fxAllOk [("mobile", 200), ("tablet", 400)] []
      = ([], true)
    ∧ variantLoop exStem exExt fxUploadFails [(exName2, 400)] []
      = ([] ++ [variantKey exStem exExt 400], false) := by
  constructor
  · exact (variant_cleanup_on_success_only exStem exExt fxAllOk
      [("mobile", 200), ("tablet", 400)] []).1 (fun f => ⟨rfl, rfl, rfl⟩)
  · exact (variant_cleanup_on_success_only exStem exExt fxUploadFails
      [(exName2, 400)] []).2 exName2 400 [] rfl rfl

/-- The variant table of src/upload_s3.rs 12-17: a const slice, iterated in
declaration order. -/
def VARIANT_SETTINGS : List (String × ℕ) :=
  [("mobile", 200), ("tablet", 400), ("desktop_md", 800), ("desktop_lg", 1200)]

/-- The entries inserted into the lazily initialised HashMap
VARIANT_SETTINGS of src/lib.rs 37-66, in insertion order. -/
def libVariantEntries : List (String × ℕ) :=
  [("mobile", 200), ("tablet", 400), ("desktop_md", 800), ("desktop_lg", 1200)]

/-- An admissible iteration order of the lib.rs variant HashMap: Rust
leaves HashMap iteration order unspecified (the hasher is randomly seeded
per process), so any permutation of the inserted entries is admissible. -/
abbrev IsLibVariantIterOrder (l : List (String × ℕ)) : Prop :=
  l.Perm libVariantEntries

/-- The variant upload keys generated by one run when the table is iterated
in the order l. -/
def uploadKeysInOrder (stem ext : String) (l : List (String × ℕ)) :
    List String :=
  l.map fun p => variantKey stem ext p.2

/-- A first admissible iteration order. -/
def exOrderA : List (String × ℕ) :=
  [("mobile", 200), ("tablet", 400), ("desktop_md", 800), ("desktop_lg", 1200)]

/-- A second admissible iteration order, with the first two entries
swapped. -/
def exOrderB : List (String × ℕ) :=
  [("tablet", 400), ("mobile", 200), ("desktop_md", 800), ("desktop_lg", 1200)]

/-- Claim C5 counterexample: two admissible iteration orders of the lib.rs
variant HashMap generate the variant upload keys in different orders, so
the upload order is not fixed across runs. -/
theorem variant_order_not_unique :
    IsLibVariantIterOrder exOrderA ∧ IsLibVariantIterOrder exOrderB
    ∧ uploadKeysInOrder exStem exExt exOrderA
      ≠ uploadKeysInOrder exStem exExt exOrderB := by
  refine ⟨by decide, by decide, by decide⟩

/-- Claim C5 (amended): the lib.rs variant HashMap guarantees its iteration
order only up to permutation, so two runs generate the same collection of
variant upload keys but not necessarily in the same order; the const slice
table of upload_s3.rs is a fixed list equal to the inserted entries, and
iterating it is deterministic. -/
theorem variant_iteration (stem ext : String) (l : List (String × ℕ))
    (h : IsLibVariantIterOrder l) :
    (uploadKeysInOrder stem ext l).Perm
        (uploadKeysInOrder stem ext libVariantEntries)
    ∧ VARIANT_SETTINGS = libVariantEntries :=
  ⟨h.map _, rfl⟩

/-- Claim C5 witness at the swapped iteration order. -/
theorem variant_iteration_witness :
    IsLibVariantIterOrder exOrderB
    ∧ ((uploadKeysInOrder exStem exExt exOrderB).Perm
          (uploadKeysInOrder exStem exExt libVariantEntries)
      ∧ VARIANT_SETTINGS = libVariantEntries) :=
  ⟨by decide, variant_iteration exStem exExt exOrderB (by decide)⟩

/-- The local mirror root (src/lib.rs 34). -/
def LOCAL_IMAGE_DIR : String := "./assets/s3-images"

/-- download_file (src/mount_s3.rs 130-158) on the set of local paths
present: when the local path already exists the download is skipped and
reported as success; otherwise the object is fetched (fetchOk false models
a failing fetch or write, leaving no file) and written. Returns the new
present set, whether a fetch was issued, and the success flag. -/
def download_file (localPath : String) (present : List String)
    (fetchOk : Bool) : List String × Bool × Bool :=
  if localPath ∈ present then (present, false, true)
  else if fetchOk then (localPath :: present, true, true)
  else (present, true, false)

/-- The local path of a mirrored key (src/lib.rs 508): the mirror root, a
slash, the key. -/
def localPathOf (key : String) : String :=
  LOCAL_IMAGE_DIR ++ "/" ++ key

/-- The download loop of mkdir_and_download_all_images_from_s3
(src/lib.rs 495-526): each metadata key is downloaded to its local path,
failures are logged and do not stop the loop. Returns the final present
set and the number of fetches issued. -/
def mirrorRun (keys : List String) (fetchOk : String → Bool)
    (present : List String) : List String × ℕ :=
  match keys with
  | [] => (present, 0)
  | k :: rest =>
    let r := download_file (localPathOf k) present (fetchOk k)
    let rst := mirrorRun rest fetchOk r.1
    (rst.1, (if r.2.1 then 1 else 0) + rst.2)

/-- The present set never loses paths during a mirror run. -/
theorem mirrorRun_mono (keys : List String) (fetchOk : String → Bool)
    (present : List String) (p : String) (hp : p ∈ present) :
    p ∈ (mirrorRun keys fetchOk present).1 := by
  induction keys generalizing present with
  | nil => exact hp
  | cons k rest ih =>
    rw [mirrorRun]
    apply ih
    unfold download_file
    split_ifs with h1 h2
    · exact hp
    · exact List.mem_cons_of_mem _ hp
    · exact hp

/-- After a mirror run whose fetches all succeed, every key has its local
file present. -/
theorem mirrorRun_covers (keys : List String) (fetchOk : String → Bool)
    (k : String) :
    ∀ present, (∀ j, j ∈ keys → fetchOk j = true) → k ∈ keys →
      localPathOf k ∈ (mirrorRun keys fetchOk present).1 := by
  induction keys with
  | nil =>
    intro present _ hk
    cases hk
  | cons k0 rest ih =>
    intro present hall hk
    rw [mirrorRun]
    rcases List.mem_cons.mp hk with rfl | hmem
    · apply mirrorRun_mono
      unfold download_file
      split_ifs with h1 h2
      · exact h1
      · exact List.mem_cons_self _ _
      · exact absurd (hall k (List.mem_cons_self _ _)) h2
    · exact ih _ (fun j hj => hall j (List.mem_cons_of_mem _ hj)) hmem

/-- A mirror run over keys whose local files all exist issues no fetch and
leaves the present set unchanged. -/
theorem mirrorRun_no_fetch (keys : List String) (fetchOk : String → Bool)
    (present : List String)
    (hall : ∀ k, k ∈ keys → localPathOf k ∈ present) :
    mirrorRun keys fetchOk present = (present, 0) := by
  induction keys with
  | nil => rfl
  | cons k rest ih =>
    rw [mirrorRun]
    have hk : localPathOf k ∈ present := hall k (List.mem_cons_self _ _)
    have hd : download_file (localPathOf k) present (fetchOk k)
        = (present, false, true) := by
      unfold download_file
      rw [if_pos hk]
    rw [hd, ih (fun j hj => hall j (List.mem_cons_of_mem _ hj))]
    rfl

/-- Claim C9: a mirror entry whose local path already exists is skipped
(no fetch, reported success), and after a first fully successful sync every
key has its local file, so a second sync over the same keys issues zero
fetches, whatever its own fetch outcomes would be. -/
theorem mirror_sync_idempotent (keys : List String)
    (fetchOk fetchOk2 : String → Bool) (present : List String) :
    (∀ lp ps b, lp ∈ ps → download_file lp ps b = (ps, false, true))
    ∧ ((∀ k, k ∈ keys → fetchOk k = true) →
      (mirrorRun keys fetchOk2 (mirrorRun keys fetchOk present).1).2 = 0) := by
  constructor
  · intro lp ps b hlp
    unfold download_file
    rw [if_pos hlp]
  · intro hall
    rw [mirrorRun_no_fetch keys fetchOk2 (mirrorRun keys fetchOk present).1
      (fun k hk => mirrorRun_covers keys fetchOk k present hall hk)]

/-- The first mirrored key of the Claim C9 witness. -/
def exKeyA : String := "a.png"

/-- The second mirrored key of the Claim C9 witness. -/
def exKeyB : String := "b.png"

/-- The mirrored key list of the Claim C9 witness. -/
def exKeys : List String := [exKeyA, exKeyB]

/-- A fetch oracle that always succeeds. -/
def fetchAll : String → Bool := fun _ => true

/-- A fetch oracle that always fails. -/
def fetchNone : String → Bool := fun _ => false

/-- Claim C9 witness: skipping an existing local path, and a second run
over a freshly synced mirror issuing zero fetches even against a failing
store. -/
theorem mirror_sync_idempotent_witness :
    download_file (localPathOf exKeyA) [localPathOf exKeyA] true
      = ([localPathOf exKeyA], false, true)
    ∧ (mirrorRun exKeys fetchNone (mirrorRun exKeys fetchAll []).1).2 = 0 := by
  have h := mirror_sync_idempotent exKeys fetchAll fetchNone []
  exact ⟨h.1 (localPathOf exKeyA) [localPathOf exKeyA] true
      (List.mem_singleton.mpr rfl),
    h.2 (fun k hk => rfl)⟩
